import Mathlib

/-!
Verification development for `generate_invoice.py`.

The Python module generates invoice PDFs, tracks a running invoice sequence
number in `invoice_number.txt`, and recovers state from the filenames already
present in the `invoices/` directory.  The definitions below are a shallow
embedding of that code: filenames are `String`s, the invoices directory is an
`Option (List String)` (absent or a listing of names), the persisted counter
file is an `Option String` (absent or its textual content), and the overall
`main` routine is a pure function from a `MainWorld` describing the
environment to an `Outcome` plus a trace of observable events.
-/

/-- Numeric value of a list of decimal digit characters (most significant
first), accumulator form; mirrors Python `int` applied to a digit string. -/
def digitsToNatAux (acc : Nat) : List Char → Nat
  | [] => acc
  | c :: rest => digitsToNatAux (10 * acc + (c.toNat - 48)) rest

/-- Numeric value of a list of decimal digit characters. -/
def digitsToNat (l : List Char) : Nat := digitsToNatAux 0 l

/-- Take exactly `k` decimal digits off the front of the list, as in the
regex fragment `\d{k}`; returns the digits and the remainder. -/
def takeKDigits : Nat → List Char → Option (List Char × List Char)
  | 0, rest => some ([], rest)
  | _ + 1, [] => none
  | k + 1, c :: rest =>
    if c.isDigit then (takeKDigits k rest).map (fun p => (c :: p.1, p.2))
    else none

/-- Greedy run of decimal digits, as in the regex fragment `\d+` followed by
a non-digit: returns the longest digit run and the remainder. -/
def spanDigits : List Char → List Char × List Char
  | [] => ([], [])
  | c :: rest =>
    if c.isDigit then (c :: (spanDigits rest).1, (spanDigits rest).2)
    else ([], c :: rest)

/-- Consume the exact literal characters given first, as a regex literal
fragment does; returns the remainder on success. -/
def expectLit : List Char → List Char → Option (List Char)
  | [], l => some l
  | _ :: _, [] => none
  | c :: cs, d :: ds => if d = c then expectLit cs ds else none

/-- The regex fragment `(\d+)\.pdf$`: a non-empty greedy digit run followed
by exactly `.pdf`, yielding the run's numeric value. -/
def matchNumberTail (l : List Char) : Option Nat :=
  if (spanDigits l).1.isEmpty then none
  else if (spanDigits l).2 = ['.', 'p', 'd', 'f'] then
    some (digitsToNat (spanDigits l).1)
  else none

/-- Matcher for the current filename pattern of `_parse_invoice_filename`:
regex `^Invoice_(\d{4})_(\d{2})_#(\d+)\.pdf$`, yielding
(year, month, number). -/
def matchNew (l : List Char) : Option (Nat × Nat × Nat) :=
  (expectLit ("Invoice_").data l).bind fun r1 =>
  (takeKDigits 4 r1).bind fun yp =>
  (expectLit [('_' : Char)] yp.2).bind fun r2 =>
  (takeKDigits 2 r2).bind fun mp =>
  (expectLit [('_' : Char), ('#' : Char)] mp.2).bind fun r3 =>
  (matchNumberTail r3).map fun n => (digitsToNat yp.1, digitsToNat mp.1, n)

/-- Matcher for the legacy filename pattern of `_parse_invoice_filename`:
regex `^Invoice_(\d{2})_(\d{4})_#(\d+)\.pdf$`, yielding
(year, month, number) — note the month comes first in the filename. -/
def matchOld (l : List Char) : Option (Nat × Nat × Nat) :=
  (expectLit ("Invoice_").data l).bind fun r1 =>
  (takeKDigits 2 r1).bind fun mp =>
  (expectLit [('_' : Char)] mp.2).bind fun r2 =>
  (takeKDigits 4 r2).bind fun yp =>
  (expectLit [('_' : Char), ('#' : Char)] yp.2).bind fun r3 =>
  (matchNumberTail r3).map fun n => (digitsToNat yp.1, digitsToNat mp.1, n)

/-- Embedding of `_parse_invoice_filename`: try the current pattern, then the
legacy one; return (year, month, number) as options, all absent when neither
pattern matches. -/
def parse_invoice_filename (name : String) :
    Option Nat × Option Nat × Option Nat :=
  match matchNew name.data with
  | some (y, m, n) => (some y, some m, some n)
  | none =>
    match matchOld name.data with
    | some (y, m, n) => (some y, some m, some n)
    | none => (none, none, none)

/-- The glob pattern `Invoice_*.pdf` used by the directory scans: a name
matches iff it starts with `Invoice_` and ends with `.pdf`. -/
def globMatch (name : String) : Bool :=
  (("Invoice_").data.isPrefixOf name.data) &&
  ((".pdf").data.isSuffixOf name.data)

example : parse_invoice_filename ("Invoice_2024_01_#3.pdf") =
    (some 2024, some 1, some 3) := by decide

example : parse_invoice_filename ("Invoice_01_2025_#7.pdf") =
    (some 2025, some 1, some 7) := by decide

example : parse_invoice_filename ("not_an_invoice.pdf") =
    (none, none, none) := by decide

/-- Embedding of the frozen `InvoiceTarget` dataclass: a billing period. -/
structure InvoiceTarget where
  month : Nat
  year : Nat
deriving DecidableEq

/-- Strict-weak order used by Python `sorted` on `(year, month)` tuples:
lexicographic ascending. -/
def targetOrder (a b : Nat × Nat) : Prop :=
  a.1 < b.1 ∨ (a.1 = b.1 ∧ a.2 ≤ b.2)

instance : DecidableRel targetOrder := fun a b =>
  inferInstanceAs (Decidable (a.1 < b.1 ∨ (a.1 = b.1 ∧ a.2 ≤ b.2)))

instance : IsTotal (Nat × Nat) targetOrder :=
  ⟨by intro a b; unfold targetOrder; omega⟩

instance : IsTrans (Nat × Nat) targetOrder :=
  ⟨by intro a b c; unfold targetOrder; omega⟩

/-- The body of the loop in `_list_generated_targets`: the `(year, month)`
pair a filename contributes to the target set, if any. -/
def target_of_name (name : String) : Option (Nat × Nat) :=
  match parse_invoice_filename name with
  | (some year, some month, _) =>
    if 1 ≤ month ∧ month ≤ 12 then some (year, month) else none
  | _ => none

/-- Embedding of `_list_generated_targets`: collect `(year, month)` from the
glob-matching, parseable filenames with in-range months into a set, then sort
ascending; an absent directory yields the empty list. -/
def list_generated_targets (dir : Option (List String)) : List InvoiceTarget :=
  match dir with
  | none => []
  | some names =>
    ((((names.filter globMatch).filterMap target_of_name).dedup).insertionSort
      targetOrder).map (fun p => InvoiceTarget.mk p.2 p.1)

/-- Embedding of `_max_invoice_number_from_pdfs`: running maximum of the
sequence numbers parsed from the glob-matching filenames; an absent
directory yields 0. -/
def max_invoice_number_from_pdfs (dir : Option (List String)) : Nat :=
  match dir with
  | none => 0
  | some names =>
    (names.filter globMatch).foldl
      (fun max_n name =>
        match (parse_invoice_filename name).2.2 with
        | none => max_n
        | some number => if number > max_n then number else max_n)
      0

/-- Python `str.strip` on a list of characters: drop whitespace from both
ends. -/
def stripChars (l : List Char) : List Char :=
  ((l.dropWhile Char.isWhitespace).reverse.dropWhile Char.isWhitespace).reverse

/-- Python `str.strip` on strings. -/
def pyStrip (s : String) : String := String.mk (stripChars s.data)

/-- Digit-run consumer for Python `int(...)`: already-seen value `acc`, then
digits, allowing a single underscore between two digits (Python's numeric
literal grouping rule). -/
def parseUDigitsGo (acc : Nat) : List Char → Option Nat
  | [] => some acc
  | c :: rest =>
    if c.isDigit then parseUDigitsGo (10 * acc + (c.toNat - 48)) rest
    else if c = '_' then
      match rest with
      | [] => none
      | d :: rest2 =>
        if d.isDigit then parseUDigitsGo (10 * acc + (d.toNat - 48)) rest2
        else none
    else none

/-- Unsigned part of Python `int(...)`: at least one digit, with optional
single underscores between digits. -/
def parseUDigits : List Char → Option Nat
  | [] => none
  | c :: rest =>
    if c.isDigit then parseUDigitsGo (c.toNat - 48) rest else none

/-- Python `int(...)` on an already-stripped character list: optional sign
followed by digits. -/
def parsePyInt (l : List Char) : Option Int :=
  match l with
  | [] => none
  | c :: rest =>
    if c = '+' then (parseUDigits rest).map (fun n => (n : Int))
    else if c = '-' then (parseUDigits rest).map (fun n => -(n : Int))
    else (parseUDigits l).map (fun n => (n : Int))

/-- Embedding of `_read_last_invoice_number`: an absent file reads as 0, an
empty (after stripping) file reads as 0, otherwise the content must parse as
a Python integer or the read raises `ValueError`. -/
def read_last_invoice_number (file : Option String) : Except String Int :=
  match file with
  | none => Except.ok 0
  | some content =>
    match stripChars content.data with
    | [] => Except.ok 0
    | raw =>
      match parsePyInt raw with
      | some n => Except.ok n
      | none => Except.error ("Invalid invoice_number.txt content")

/-- Little-endian decimal digit characters of `n`, fuel-indexed so that the
definition is structurally recursive (fuel `n + 1` always suffices). -/
def natDigitsRev (fuel n : Nat) : List Char :=
  match fuel with
  | 0 => []
  | f + 1 =>
    if n < 10 then [Char.ofNat (48 + n)]
    else Char.ofNat (48 + n % 10) :: natDigitsRev f (n / 10)

/-- Decimal digit characters of a natural number, most significant first. -/
def natToChars (n : Nat) : List Char := (natDigitsRev (n + 1) n).reverse

/-- Decimal string of a natural number, as Python `str` renders it. -/
def natToString (n : Nat) : String := String.mk (natToChars n)

/-- Decimal string of an integer, as Python `str` renders it. -/
def intToDecimalString (i : Int) : String :=
  if i < 0 then String.mk ('-' :: natToChars i.natAbs)
  else String.mk (natToChars i.toNat)

/-- Embedding of `_write_last_invoice_number`: the file content written for a
value, Python `f-string` `value` followed by a newline. -/
def write_last_invoice_number (value : Int) : String :=
  intToDecimalString value ++ "\n"

/-- The sequence-number reconciliation of `main` (lines 268–271): read the
persisted counter, take the maximum against the directory-derived maximum,
and add one. -/
def next_invoice_number (file : Option String) (dir : Option (List String)) :
    Except String Int :=
  match read_last_invoice_number file with
  | Except.error e => Except.error e
  | Except.ok last_from_file =>
    Except.ok (max last_from_file
      (Int.ofNat (max_invoice_number_from_pdfs dir)) + 1)

/-- Zero-pad a decimal string to width `w`, as Python `f-string` `:0wd`
formatting does for non-negative values. -/
def zfill (w : Nat) (s : String) : String :=
  String.mk (List.replicate (w - s.data.length) ('0' : Char) ++ s.data)

/-- `InvoiceTarget.month_str`: the zero-padded two-digit month. -/
def InvoiceTarget.month_str (t : InvoiceTarget) : String :=
  zfill 2 (natToString t.month)

/-- `InvoiceTarget.year_str`: the zero-padded four-digit year. -/
def InvoiceTarget.year_str (t : InvoiceTarget) : String :=
  zfill 4 (natToString t.year)

/-- `InvoiceTarget.ym_str`: the `YYYY-MM` rendering. -/
def InvoiceTarget.ym_str (t : InvoiceTarget) : String :=
  t.year_str ++ ("-") ++ t.month_str

/-- Prompt form 1, regex `fullmatch (\d{1,2})`: one or two bare digits. -/
def match_digits_1_2 : List Char → Option Nat
  | [c] => if c.isDigit then some (digitsToNat [c]) else none
  | [c, d] => if c.isDigit && d.isDigit then some (digitsToNat [c, d]) else none
  | _ => none

/-- Exactly four digits and nothing else, regex `(\d{4})$`. -/
def exact4Digits : List Char → Option Nat
  | [a, b, c, d] =>
    if a.isDigit && b.isDigit && c.isDigit && d.isDigit then
      some (digitsToNat [a, b, c, d])
    else none
  | _ => none

/-- Prompt form 2, regex `fullmatch (\d{1,2})/(\d{4})`: month then year. -/
def match_mm_yyyy : List Char → Option (Nat × Nat)
  | c :: '/' :: rest =>
    if c.isDigit then (exact4Digits rest).map (fun y => (digitsToNat [c], y))
    else none
  | c :: d :: '/' :: rest =>
    if c.isDigit && d.isDigit then
      (exact4Digits rest).map (fun y => (digitsToNat [c, d], y))
    else none
  | _ => none

/-- Prompt form 3, regex `fullmatch (\d{4})-(\d{1,2})`: year then month. -/
def match_yyyy_mm : List Char → Option (Nat × Nat)
  | [a, b, c, d, '-', e] =>
    if a.isDigit && b.isDigit && c.isDigit && d.isDigit && e.isDigit then
      some (digitsToNat [a, b, c, d], digitsToNat [e])
    else none
  | [a, b, c, d, '-', e, f] =>
    if a.isDigit && b.isDigit && c.isDigit && d.isDigit
        && e.isDigit && f.isDigit then
      some (digitsToNat [a, b, c, d], digitsToNat [e, f])
    else none
  | _ => none

/-- The range validation at the end of `_prompt_target`: month must lie in
1–12 (checked first), year in 1900–3000. -/
def check_target (month year : Nat) : Except String InvoiceTarget :=
  if 1 ≤ month ∧ month ≤ 12 then
    if 1900 ≤ year ∧ year ≤ 3000 then Except.ok (InvoiceTarget.mk month year)
    else Except.error ("Year looks invalid.")
  else Except.error ("Month must be between 1 and 12.")

/-- Embedding of `_prompt_target`: strip the raw input, reject empty input,
try the three accepted forms in order, then range-check month and year. -/
def prompt_target (raw0 : String) (default_year : Nat) :
    Except String InvoiceTarget :=
  match stripChars raw0.data with
  | [] => Except.error ("No input provided.")
  | raw =>
    match match_digits_1_2 raw with
    | some month => check_target month default_year
    | none =>
      match match_mm_yyyy raw with
      | some (month, year) => check_target month year
      | none =>
        match match_yyyy_mm raw with
        | some (year, month) => check_target month year
        | none =>
          Except.error ("Invalid format. Use: M, MM, MM/YYYY, or YYYY-MM.")

/-- The sixteen required configuration keys of the source module. -/
def REQUIRED_ENV_KEYS : List String :=
  [("COMPANY_NAME"), ("COMPANY_ID"), ("BILL_FROM"), ("BILL_TO"),
   ("SERVICE_TITLE"), ("SERVICE_DESC"), ("CURRENCY"), ("AMOUNT"),
   ("BENEFICIARY_NAME"), ("IBAN"), ("SWIFT"), ("BANK_NAME"),
   ("BANK_ADDRESS"), ("INTERMEDIARY_BANK_NAME"),
   ("INTERMEDIARY_BANK_SWIFT"), ("SUPPORT_EMAIL")]

/-- Embedding of `_normalize_env_value` on characters: each literal
backslash-n two-character escape becomes a newline. -/
def normalize_env_chars : List Char → List Char
  | '\\' :: 'n' :: rest => '\n' :: normalize_env_chars rest
  | c :: rest => c :: normalize_env_chars rest
  | [] => []

/-- Embedding of `_normalize_env_value`. -/
def normalize_env_value (v : String) : String :=
  String.mk (normalize_env_chars v.data)

/-- Lookup in the environment dictionary; later bindings overwrite earlier
ones, as for a Python dict built by assignment. -/
def envLookup (env : List (String × String)) (k : String) : Option String :=
  (env.reverse.find? (fun p => p.1 == k)).map (fun p => p.2)

/-- The loop of `_load_env`: keep pairs whose value is present (dotenv may
yield valueless keys) and normalize the values. -/
def cleaned_env (pairs : List (String × Option String)) :
    List (String × String) :=
  pairs.filterMap (fun kv =>
    match kv.2 with
    | none => none
    | some v => some (kv.1, normalize_env_value v))

/-- The required keys that are absent or empty in the loaded environment. -/
def missing_env_keys (env : List (String × String)) : List String :=
  REQUIRED_ENV_KEYS.filter (fun k =>
    match envLookup env k with
    | none => true
    | some v => v == (""))

/-- Embedding of `_load_env`: normalize the dotenv pairs and fail when any
required key is missing or empty. -/
def load_env (pairs : List (String × Option String)) :
    Except String (List (String × String)) :=
  match missing_env_keys (cleaned_env pairs) with
  | [] => Except.ok (cleaned_env pairs)
  | missing =>
    Except.error (("Missing required keys in .env: ")
      ++ String.intercalate (", ") missing)

/-- The final output filename built in `main`:
`Invoice_{year}_{month}_#{next_number}.pdf`. -/
def pdf_name (t : InvoiceTarget) (n : Int) : String :=
  ("Invoice_") ++ t.year_str ++ ("_") ++ t.month_str ++ ("_#")
    ++ intToDecimalString n ++ (".pdf")

/-- The environment a single run of `main` observes.  Filesystem state is
frozen per query: `invoices_dir` is the listing the two glob scans see
(`none` when the directory did not exist before the `mkdir`), and
`out_pdf_exists` is the answer of the separate `exists()` query made on the
computed final output path before rendering. -/
structure MainWorld where
  env_file : Option (List (String × Option String))
  template_exists : Bool
  invoices_dir : Option (List String)
  counter_file : Option String
  prompt_input : String
  today_year : Nat
  node_in_path : Bool
  python_in_path : Bool
  out_pdf_exists : Bool
  render_raises : Bool
  pdf_materializes : Bool

/-- Observable events of a run, in program order. -/
inductive Ev where
  | prompt_read
  | warned_duplicate
  | rendered
  | converted
  | moved_pdf
  | wrote_counter (n : Int)
  | printed_error
deriving DecidableEq

/-- How the process ends: a normal return from `main` with an exit code, or
an exception that propagates out of `main` uncaught (the interpreter then
terminates with a traceback and status 1, with no handled error message). -/
inductive Outcome where
  | exited (code : Nat)
  | uncaught_exception
deriving DecidableEq

/-- Embedding of `main`: the sequential run over a `MainWorld`, producing
the outcome and the trace of observable events. -/
def run_main (w : MainWorld) : Outcome × List Ev :=
  match w.env_file with
  | none => (Outcome.exited 1, [Ev.printed_error])
  | some env_pairs =>
    if w.template_exists = false then (Outcome.exited 1, [Ev.printed_error])
    else
      let names := w.invoices_dir.getD []
      let generated := list_generated_targets (some names)
      match prompt_target w.prompt_input w.today_year with
      | Except.error _ => (Outcome.exited 1, [Ev.prompt_read, Ev.printed_error])
      | Except.ok target =>
        let ev0 : List Ev :=
          if generated.any
              (fun t => t.year == target.year && t.month == target.month) then
            [Ev.prompt_read, Ev.warned_duplicate]
          else [Ev.prompt_read]
        if (w.node_in_path && w.python_in_path) = false then
          (Outcome.exited 1, ev0 ++ [Ev.printed_error])
        else
          match load_env env_pairs with
          | Except.error _ => (Outcome.exited 1, ev0 ++ [Ev.printed_error])
          | Except.ok _ =>
            match read_last_invoice_number w.counter_file with
            | Except.error _ => (Outcome.uncaught_exception, ev0)
            | Except.ok last_from_file =>
              let next_number : Int :=
                max last_from_file
                  (Int.ofNat (max_invoice_number_from_pdfs (some names))) + 1
              if w.out_pdf_exists then
                (Outcome.exited 1, ev0 ++ [Ev.printed_error])
              else if w.render_raises then (Outcome.uncaught_exception, ev0)
              else if w.pdf_materializes = false then
                (Outcome.exited 1, ev0 ++ [Ev.rendered, Ev.converted,
                  Ev.printed_error])
              else
                (Outcome.exited 0, ev0 ++ [Ev.rendered, Ev.converted,
                  Ev.moved_pdf, Ev.wrote_counter next_number])

example : next_invoice_number (some ("5")) (some [("Invoice_2024_01_#9.pdf")]) =
    Except.ok 10 := rfl

example : read_last_invoice_number (some ("abc")) =
    Except.error ("Invalid invoice_number.txt content") := rfl

example : read_last_invoice_number (some (" 42\n")) = Except.ok 42 := rfl

example : intToDecimalString 120 = ("120") := by decide


/-- Configuration pairs with every required key present and non-empty. -/
def goodEnvPairs : List (String × Option String) :=
  REQUIRED_ENV_KEYS.map (fun k => (k, some ("x")))

/-- A fully healthy world: valid configuration, template present, empty
invoices directory, no counter file, prompt input `3`, year 2026, tools
available, rendering succeeds.  Fields are in declaration order. -/
def baseWorld : MainWorld :=
  MainWorld.mk (some goodEnvPairs) true (some []) none ("3") 2026
    true true false false true

example : run_main baseWorld =
    (Outcome.exited 0, [Ev.prompt_read, Ev.rendered, Ev.converted,
      Ev.moved_pdf, Ev.wrote_counter 1]) := rfl

example : pdf_name (InvoiceTarget.mk 3 2026) 1 =
    ("Invoice_2026_03_#1.pdf") := rfl

example : prompt_target ("13") 2026 =
    Except.error ("Month must be between 1 and 12.") := rfl

example : prompt_target ("02/2026") 2024 =
    Except.ok (InvoiceTarget.mk 2 2026) := rfl

example : prompt_target ("2026-2") 2024 =
    Except.ok (InvoiceTarget.mk 2 2026) := rfl

/-! ### Unfolding equations for the small recursive helpers -/

theorem digitsToNatAux_nil (acc : Nat) : digitsToNatAux acc [] = acc := rfl

theorem digitsToNatAux_cons (acc : Nat) (c : Char) (rest : List Char) :
    digitsToNatAux acc (c :: rest) =
      digitsToNatAux (10 * acc + (c.toNat - 48)) rest := rfl

theorem takeKDigits_zero (l : List Char) : takeKDigits 0 l = some ([], l) := rfl

theorem takeKDigits_succ_nil (k : Nat) : takeKDigits (k + 1) [] = none := rfl

theorem takeKDigits_succ_cons (k : Nat) (c : Char) (rest : List Char) :
    takeKDigits (k + 1) (c :: rest) =
      if c.isDigit then (takeKDigits k rest).map (fun p => (c :: p.1, p.2))
      else none := rfl

theorem spanDigits_nil : spanDigits [] = ([], []) := rfl

theorem spanDigits_cons (c : Char) (rest : List Char) :
    spanDigits (c :: rest) =
      if c.isDigit then (c :: (spanDigits rest).1, (spanDigits rest).2)
      else ([], c :: rest) := rfl

theorem expectLit_nil (l : List Char) : expectLit [] l = some l := rfl

theorem expectLit_cons_nil (c : Char) (cs : List Char) :
    expectLit (c :: cs) [] = none := rfl

theorem expectLit_cons_cons (c : Char) (cs : List Char) (d : Char)
    (ds : List Char) :
    expectLit (c :: cs) (d :: ds) =
      if d = c then expectLit cs ds else none := rfl

/-! ### Lemmas about digit lists -/

theorem digitsToNatAux_append (l1 l2 : List Char) (acc : Nat) :
    digitsToNatAux acc (l1 ++ l2) =
      digitsToNatAux (digitsToNatAux acc l1) l2 := by
  induction l1 generalizing acc with
  | nil => rfl
  | cons c rest ih =>
    rw [List.cons_append, digitsToNatAux_cons, digitsToNatAux_cons]
    exact ih _

theorem char_digit_toNat (c : Char) (h : c.isDigit = true) :
    48 ≤ c.toNat ∧ c.toNat ≤ 57 := by
  simp [Char.isDigit] at h
  exact h

theorem digitsToNatAux_lt (l : List Char) (acc : Nat)
    (h : ∀ c ∈ l, c.isDigit = true) :
    digitsToNatAux acc l < (acc + 1) * 10 ^ l.length := by
  induction l generalizing acc with
  | nil => simp [digitsToNatAux_nil]
  | cons c rest ih =>
    have hc := char_digit_toNat c (h c (by simp))
    have hr := ih (10 * acc + (c.toNat - 48)) (fun d hd => h d (by simp [hd]))
    rw [digitsToNatAux_cons, List.length_cons]
    calc digitsToNatAux (10 * acc + (c.toNat - 48)) rest
        < (10 * acc + (c.toNat - 48) + 1) * 10 ^ rest.length := hr
      _ ≤ (10 * (acc + 1)) * 10 ^ rest.length :=
          Nat.mul_le_mul_right _ (by omega)
      _ = (acc + 1) * 10 ^ (rest.length + 1) := by ring

theorem digitsToNat_lt (l : List Char) (h : ∀ c ∈ l, c.isDigit = true) :
    digitsToNat l < 10 ^ l.length := by
  simpa [digitsToNat] using digitsToNatAux_lt l 0 h

theorem expectLit_self_append (s r : List Char) :
    expectLit s (s ++ r) = some r := by
  induction s with
  | nil => rfl
  | cons c cs ih => simp [expectLit_cons_cons, ih]

theorem takeKDigits_exact (ds r : List Char)
    (h : ∀ c ∈ ds, c.isDigit = true) :
    takeKDigits ds.length (ds ++ r) = some (ds, r) := by
  induction ds with
  | nil => rfl
  | cons c rest ih =>
    rw [List.length_cons, List.cons_append, takeKDigits_succ_cons,
      ih (fun d hd => h d (by simp [hd]))]
    simp [h c (by simp)]

theorem takeKDigits_short (ds : List Char) (hd : Char) (r : List Char)
    (k : Nat) (hlen : ds.length < k) (hdig : ∀ c ∈ ds, c.isDigit = true)
    (hhd : hd.isDigit = false) :
    takeKDigits k (ds ++ hd :: r) = none := by
  induction ds generalizing k with
  | nil =>
    cases k with
    | zero => omega
    | succ k => simp [takeKDigits_succ_cons, hhd]
  | cons c rest ih =>
    cases k with
    | zero => omega
    | succ k =>
      rw [List.cons_append, takeKDigits_succ_cons,
        ih k (by simp at hlen; omega) (fun d hd2 => hdig d (by simp [hd2]))]
      simp [hdig c (by simp)]

theorem takeKDigits_sound :
    ∀ (k : Nat) (l ds r : List Char), takeKDigits k l = some (ds, r) →
      l = ds ++ r ∧ ds.length = k ∧ (∀ c ∈ ds, c.isDigit = true) := by
  intro k
  induction k with
  | zero =>
    intro l ds r h
    rw [takeKDigits_zero] at h
    simp at h
    obtain ⟨h1, h2⟩ := h
    subst h1; subst h2; simp
  | succ k ih =>
    intro l ds r h
    cases l with
    | nil => rw [takeKDigits_succ_nil] at h; exact absurd h (by simp)
    | cons c rest =>
      rw [takeKDigits_succ_cons] at h
      by_cases hc : c.isDigit
      · rw [if_pos hc] at h
        cases htk : takeKDigits k rest with
        | none => rw [htk] at h; simp at h
        | some p =>
          obtain ⟨ds2, r2⟩ := p
          rw [htk] at h
          simp at h
          obtain ⟨hds, hr⟩ := h
          obtain ⟨hl, hlen, hdig⟩ := ih rest ds2 r2 htk
          subst hds; subst hr; subst hl
          refine ⟨by simp, by simp [hlen], ?_⟩
          intro d hd
          rcases List.mem_cons.mp hd with h | h
          · subst h; exact hc
          · exact hdig d h
      · rw [if_neg hc] at h; exact absurd h (by simp)

theorem spanDigits_append (a : List Char) (hd : Char) (b : List Char)
    (ha : ∀ c ∈ a, c.isDigit = true) (hhd : hd.isDigit = false) :
    spanDigits (a ++ hd :: b) = (a, hd :: b) := by
  induction a with
  | nil => simp [spanDigits_cons, hhd]
  | cons c rest ih =>
    rw [List.cons_append, spanDigits_cons,
      if_pos (ha c (by simp)), ih (fun d hd2 => ha d (by simp [hd2]))]

/-! ### The two filename patterns agree on equivalent fields -/

theorem matchNumberTail_build (N : List Char) (hN : N ≠ [])
    (hNd : ∀ c ∈ N, c.isDigit = true) :
    matchNumberTail (N ++ ['.', 'p', 'd', 'f']) = some (digitsToNat N) := by
  cases N with
  | nil => exact absurd rfl hN
  | cons c rest =>
    have hspan := spanDigits_append (c :: rest) '.' ['p', 'd', 'f'] hNd rfl
    simp only [matchNumberTail, hspan]
    simp

theorem matchNew_build (Y M N : List Char)
    (hY : Y.length = 4) (hYd : ∀ c ∈ Y, c.isDigit = true)
    (hM : M.length = 2) (hMd : ∀ c ∈ M, c.isDigit = true)
    (hN : N ≠ []) (hNd : ∀ c ∈ N, c.isDigit = true) :
    matchNew ('I' :: 'n' :: 'v' :: 'o' :: 'i' :: 'c' :: 'e' :: '_'
        :: (Y ++ '_' :: (M ++ '_' :: '#' :: (N ++ ['.', 'p', 'd', 'f'])))) =
      some (digitsToNat Y, digitsToNat M, digitsToNat N) := by
  have hInv : ∀ r : List Char, expectLit ("Invoice_").data
      ('I' :: 'n' :: 'v' :: 'o' :: 'i' :: 'c' :: 'e' :: '_' :: r) = some r :=
    fun r => rfl
  have h4 := takeKDigits_exact Y
    ('_' :: (M ++ '_' :: '#' :: (N ++ ['.', 'p', 'd', 'f']))) hYd
  rw [hY] at h4
  have h2 := takeKDigits_exact M
    ('_' :: '#' :: (N ++ ['.', 'p', 'd', 'f'])) hMd
  rw [hM] at h2
  have hund : ∀ r : List Char, expectLit [('_' : Char)] ('_' :: r) = some r :=
    fun r => rfl
  have hund2 : ∀ r : List Char,
      expectLit [('_' : Char), ('#' : Char)] ('_' :: '#' :: r) = some r :=
    fun r => rfl
  have htail := matchNumberTail_build N hN hNd
  simp only [matchNew, hInv, Option.some_bind, h4, h2, hund, hund2]
  simp [htail]

theorem matchNew_skip (Y M N : List Char)
    (hM : M.length = 2) (hMd : ∀ c ∈ M, c.isDigit = true) :
    matchNew ('I' :: 'n' :: 'v' :: 'o' :: 'i' :: 'c' :: 'e' :: '_'
        :: (M ++ '_' :: (Y ++ '_' :: '#' :: (N ++ ['.', 'p', 'd', 'f'])))) =
      none := by
  have hInv : ∀ r : List Char, expectLit ("Invoice_").data
      ('I' :: 'n' :: 'v' :: 'o' :: 'i' :: 'c' :: 'e' :: '_' :: r) = some r :=
    fun r => rfl
  have h4 : takeKDigits 4
      (M ++ '_' :: (Y ++ '_' :: '#' :: (N ++ ['.', 'p', 'd', 'f']))) = none :=
    takeKDigits_short M '_'
      (Y ++ '_' :: '#' :: (N ++ ['.', 'p', 'd', 'f'])) 4
      (by omega) hMd rfl
  simp only [matchNew, hInv, Option.some_bind, h4, Option.none_bind]

theorem matchOld_build (Y M N : List Char)
    (hY : Y.length = 4) (hYd : ∀ c ∈ Y, c.isDigit = true)
    (hM : M.length = 2) (hMd : ∀ c ∈ M, c.isDigit = true)
    (hN : N ≠ []) (hNd : ∀ c ∈ N, c.isDigit = true) :
    matchOld ('I' :: 'n' :: 'v' :: 'o' :: 'i' :: 'c' :: 'e' :: '_'
        :: (M ++ '_' :: (Y ++ '_' :: '#' :: (N ++ ['.', 'p', 'd', 'f'])))) =
      some (digitsToNat Y, digitsToNat M, digitsToNat N) := by
  have hInv : ∀ r : List Char, expectLit ("Invoice_").data
      ('I' :: 'n' :: 'v' :: 'o' :: 'i' :: 'c' :: 'e' :: '_' :: r) = some r :=
    fun r => rfl
  have h2 := takeKDigits_exact M
    ('_' :: (Y ++ '_' :: '#' :: (N ++ ['.', 'p', 'd', 'f']))) hMd
  rw [hM] at h2
  have h4 := takeKDigits_exact Y
    ('_' :: '#' :: (N ++ ['.', 'p', 'd', 'f'])) hYd
  rw [hY] at h4
  have hund : ∀ r : List Char, expectLit [('_' : Char)] ('_' :: r) = some r :=
    fun r => rfl
  have hund2 : ∀ r : List Char,
      expectLit [('_' : Char), ('#' : Char)] ('_' :: '#' :: r) = some r :=
    fun r => rfl
  have htail := matchNumberTail_build N hN hNd
  simp only [matchOld, hInv, Option.some_bind, h2, h4, hund, hund2]
  simp [htail]

/-- C3: for every 4-digit year string `Y`, 2-digit month string `M`, and
non-empty digit string `N`, parsing the current-format filename
`Invoice_Y_M_#N.pdf` and the legacy-format filename `Invoice_M_Y_#N.pdf`
recovers the same (year, month, number) triple, and a filename matching
neither accepted pattern parses to all-absent. -/
theorem parse_filename_two_formats_agree :
    (∀ Y M N : List Char,
        Y.length = 4 → (∀ c ∈ Y, c.isDigit = true) →
        M.length = 2 → (∀ c ∈ M, c.isDigit = true) →
        N ≠ [] → (∀ c ∈ N, c.isDigit = true) →
        parse_invoice_filename (("Invoice_") ++ String.mk Y ++ ("_")
            ++ String.mk M ++ ("_#") ++ String.mk N ++ (".pdf")) =
          (some (digitsToNat Y), some (digitsToNat M), some (digitsToNat N))
        ∧ parse_invoice_filename (("Invoice_") ++ String.mk M ++ ("_")
            ++ String.mk Y ++ ("_#") ++ String.mk N ++ (".pdf")) =
          (some (digitsToNat Y), some (digitsToNat M), some (digitsToNat N)))
    ∧ (∀ name : String, matchNew name.data = none → matchOld name.data = none →
        parse_invoice_filename name = (none, none, none)) := by
  constructor
  · intro Y M N hY hYd hM hMd hN hNd
    have hI : ("Invoice_").data = ['I', 'n', 'v', 'o', 'i', 'c', 'e', '_'] :=
      rfl
    have hU : ("_").data = ['_'] := rfl
    have hUH : ("_#").data = ['_', '#'] := rfl
    have hP : (".pdf").data = ['.', 'p', 'd', 'f'] := rfl
    have hdata1 : (("Invoice_") ++ String.mk Y ++ ("_") ++ String.mk M
        ++ ("_#") ++ String.mk N ++ (".pdf")).data =
        'I' :: 'n' :: 'v' :: 'o' :: 'i' :: 'c' :: 'e' :: '_'
          :: (Y ++ '_' :: (M ++ '_' :: '#' :: (N ++ ['.', 'p', 'd', 'f']))) := by
      simp [String.data_append, hI, hU, hUH, hP]
    have hdata2 : (("Invoice_") ++ String.mk M ++ ("_") ++ String.mk Y
        ++ ("_#") ++ String.mk N ++ (".pdf")).data =
        'I' :: 'n' :: 'v' :: 'o' :: 'i' :: 'c' :: 'e' :: '_'
          :: (M ++ '_' :: (Y ++ '_' :: '#' :: (N ++ ['.', 'p', 'd', 'f']))) := by
      simp [String.data_append, hI, hU, hUH, hP]
    constructor
    · simp only [parse_invoice_filename, hdata1,
        matchNew_build Y M N hY hYd hM hMd hN hNd]
    · simp only [parse_invoice_filename, hdata2,
        matchNew_skip Y M N hM hMd,
        matchOld_build Y M N hY hYd hM hMd hN hNd]
  · intro name h1 h2
    simp only [parse_invoice_filename, h1, h2]

theorem parse_filename_two_formats_agree_witness :
    parse_invoice_filename (("Invoice_") ++ String.mk ['2', '0', '2', '4']
        ++ ("_") ++ String.mk ['0', '1'] ++ ("_#") ++ String.mk ['7']
        ++ (".pdf")) =
      (some (digitsToNat ['2', '0', '2', '4']), some (digitsToNat ['0', '1']),
        some (digitsToNat ['7']))
    ∧ parse_invoice_filename (("Invoice_") ++ String.mk ['0', '1'] ++ ("_")
        ++ String.mk ['2', '0', '2', '4'] ++ ("_#") ++ String.mk ['7']
        ++ (".pdf")) =
      (some (digitsToNat ['2', '0', '2', '4']), some (digitsToNat ['0', '1']),
        some (digitsToNat ['7'])) :=
  parse_filename_two_formats_agree.1 ['2', '0', '2', '4'] ['0', '1'] ['7']
    (by decide) (by decide) (by decide) (by decide) (by decide) (by decide)

/-! ### Generated-target discovery -/

theorem target_of_name_eq (name : String) (y m : Nat) :
    target_of_name name = some (y, m) ↔
      (∃ n, parse_invoice_filename name = (some y, some m, n))
      ∧ (1 ≤ m ∧ m ≤ 12) := by
  rcases hp : parse_invoice_filename name with ⟨oy, om, n3⟩
  cases oy with
  | none => simp [target_of_name, hp]
  | some y2 =>
    cases om with
    | none => simp [target_of_name, hp]
    | some m2 =>
      simp only [target_of_name, hp]
      by_cases hr : 1 ≤ m2 ∧ m2 ≤ 12
      · rw [if_pos hr]
        simp only [Option.some.injEq, Prod.mk.injEq]
        constructor
        · rintro ⟨rfl, rfl⟩
          exact ⟨⟨n3, rfl, rfl, rfl⟩, hr⟩
        · rintro ⟨⟨n, hn1, hn2, hn3⟩, _⟩
          exact ⟨hn1, hn2⟩
      · rw [if_neg hr]
        simp only [false_iff, (by simp : (none : Option (Nat × Nat)) ≠ some (y, m))]
        rintro ⟨⟨n, hn⟩, hm⟩
        simp only [Prod.mk.injEq, Option.some.injEq] at hn
        obtain ⟨h1, h2, h3⟩ := hn
        subst h1
        subst h2
        exact hr hm

/-- Helper: membership characterization of discovery over a listing. -/
theorem mem_list_generated_targets (names : List String) (t : InvoiceTarget) :
    t ∈ list_generated_targets (some names) ↔
      ∃ name ∈ names, globMatch name = true
        ∧ (∃ n, parse_invoice_filename name = (some t.year, some t.month, n))
        ∧ 1 ≤ t.month ∧ t.month ≤ 12 := by
  have hrfl : list_generated_targets (some names) =
      ((((names.filter globMatch).filterMap target_of_name).dedup).insertionSort
        targetOrder).map (fun p => InvoiceTarget.mk p.2 p.1) := rfl
  rw [hrfl]
  constructor
  · intro ht
    obtain ⟨p, hp, hfp⟩ := List.mem_map.mp ht
    have hp2 := ((List.perm_insertionSort targetOrder _).mem_iff).mp hp
    have hp3 := List.mem_dedup.mp hp2
    obtain ⟨name, hname, htn⟩ := List.mem_filterMap.mp hp3
    obtain ⟨hmem, hglob⟩ := List.mem_filter.mp hname
    refine ⟨name, hmem, hglob, ?_⟩
    obtain ⟨p1, p2⟩ := p
    cases hfp
    exact (target_of_name_eq name p1 p2).mp htn
  · rintro ⟨name, hmem, hglob, hparse, hm1, hm2⟩
    apply List.mem_map.mpr
    refine ⟨(t.year, t.month), ?_, ?_⟩
    · apply ((List.perm_insertionSort targetOrder _).mem_iff).mpr
      apply List.mem_dedup.mpr
      apply List.mem_filterMap.mpr
      exact ⟨name, List.mem_filter.mpr ⟨hmem, hglob⟩,
        (target_of_name_eq name t.year t.month).mpr ⟨hparse, hm1, hm2⟩⟩
    · cases t
      rfl

/-- C2: generated-target discovery returns the deduplicated list of
(year, month) pairs from the glob-matched, parseable filenames whose month
lies in 1–12, sorted ascending by year then month; unparseable or
out-of-range filenames are ignored (captured by the membership
characterization), and an absent directory yields the empty list; finally,
the spec's concrete example evaluates as stated. -/
theorem list_generated_targets_spec :
    list_generated_targets none = []
    ∧ (∀ names : List String,
        List.Sorted (fun a b : InvoiceTarget =>
            a.year < b.year ∨ (a.year = b.year ∧ a.month ≤ b.month))
          (list_generated_targets (some names)))
    ∧ (∀ names : List String, (list_generated_targets (some names)).Nodup)
    ∧ (∀ (names : List String) (t : InvoiceTarget),
        t ∈ list_generated_targets (some names) ↔
          ∃ name ∈ names, globMatch name = true
            ∧ (∃ n, parse_invoice_filename name = (some t.year, some t.month, n))
            ∧ 1 ≤ t.month ∧ t.month ≤ 12)
    ∧ list_generated_targets (some [("Invoice_2024_01_#3.pdf"),
        ("Invoice_01_2025_#7.pdf"), ("not_an_invoice.pdf")]) =
      [InvoiceTarget.mk 1 2024, InvoiceTarget.mk 1 2025] := by
  refine ⟨rfl, ?_, ?_, ?_, by decide⟩
  · intro names
    have hs := List.sorted_insertionSort targetOrder
      (((names.filter globMatch).filterMap target_of_name).dedup)
    have : list_generated_targets (some names) =
        ((((names.filter globMatch).filterMap target_of_name).dedup).insertionSort
          targetOrder).map (fun p => InvoiceTarget.mk p.2 p.1) := rfl
    rw [this]
    exact List.Pairwise.map _ (fun a b hab => by
      unfold targetOrder at hab
      exact hab) hs
  · intro names
    have hperm := List.perm_insertionSort targetOrder
      (((names.filter globMatch).filterMap target_of_name).dedup)
    have hnd : ((((names.filter globMatch).filterMap
        target_of_name).dedup).insertionSort targetOrder).Nodup :=
      (hperm.nodup_iff).mpr (List.nodup_dedup _)
    have hinj : Function.Injective
        (fun p : Nat × Nat => InvoiceTarget.mk p.2 p.1) := by
      intro p q h
      cases p
      cases q
      simp only [InvoiceTarget.mk.injEq] at h
      exact Prod.ext h.2 h.1
    exact hnd.map hinj
  · exact mem_list_generated_targets

/-! ### Sequence-number reconciliation -/

/-- One step of the loop in `_max_invoice_number_from_pdfs`. -/
def pdfMaxStep (max_n : Nat) (name : String) : Nat :=
  match (parse_invoice_filename name).2.2 with
  | none => max_n
  | some number => if number > max_n then number else max_n

theorem max_invoice_number_eq_foldl (names : List String) :
    max_invoice_number_from_pdfs (some names) =
      (names.filter globMatch).foldl pdfMaxStep 0 := rfl

theorem pdfMaxStep_foldl (l : List String) (acc : Nat) :
    acc ≤ l.foldl pdfMaxStep acc
    ∧ (∀ name ∈ l, ∀ k, (parse_invoice_filename name).2.2 = some k →
        k ≤ l.foldl pdfMaxStep acc)
    ∧ (l.foldl pdfMaxStep acc = acc
        ∨ ∃ name ∈ l, (parse_invoice_filename name).2.2 =
            some (l.foldl pdfMaxStep acc)) := by
  induction l generalizing acc with
  | nil => simp
  | cons a l ih =>
    have hstep : acc ≤ pdfMaxStep acc a := by
      rcases hpa : (parse_invoice_filename a).2.2 with _ | k
      · simp [pdfMaxStep, hpa]
      · simp only [pdfMaxStep, hpa]
        split <;> omega
    obtain ⟨ih1, ih2, ih3⟩ := ih (pdfMaxStep acc a)
    rw [List.foldl_cons]
    refine ⟨le_trans hstep ih1, ?_, ?_⟩
    · intro name hname k hk
      rcases List.mem_cons.mp hname with rfl | hname2
      · have hk2 : k ≤ pdfMaxStep acc name := by
          simp only [pdfMaxStep, hk]
          split <;> omega
        exact le_trans hk2 ih1
      · exact ih2 name hname2 k hk
    · rcases ih3 with heq | hex
      · rw [heq]
        rcases hpa : (parse_invoice_filename a).2.2 with _ | k
        · left
          simp [pdfMaxStep, hpa]
        · by_cases hka : k > acc
          · right
            exact ⟨a, by simp, by simp [pdfMaxStep, hpa, hka]⟩
          · left
            simp [pdfMaxStep, hpa, hka]
      · obtain ⟨name, hname, hval⟩ := hex
        right
        exact ⟨name, List.mem_cons_of_mem _ hname, hval⟩

/-- C1: the next sequence number is `max(persisted counter, maximum sequence
number parsed from the directory) + 1`; the directory-derived value really is
that maximum (an upper bound on every parsed number, and attained unless the
directory contributes nothing); and the two concrete scenarios of the spec
evaluate as stated (counter `5` with a `#9` file gives 10; no counter with
`#2` and `#4` files gives 5). -/
theorem next_invoice_number_spec :
    (∀ (file : Option String) (dir : Option (List String)) (c : Int),
        read_last_invoice_number file = Except.ok c →
        next_invoice_number file dir =
          Except.ok (max c (Int.ofNat (max_invoice_number_from_pdfs dir)) + 1))
    ∧ (∀ names : List String,
        (∀ name ∈ names, ∀ k, globMatch name = true →
           (parse_invoice_filename name).2.2 = some k →
           k ≤ max_invoice_number_from_pdfs (some names))
        ∧ (max_invoice_number_from_pdfs (some names) = 0
           ∨ ∃ name ∈ names, globMatch name = true
               ∧ (parse_invoice_filename name).2.2 =
                   some (max_invoice_number_from_pdfs (some names))))
    ∧ next_invoice_number (some ("5")) (some [("Invoice_2024_01_#9.pdf")]) =
        Except.ok 10
    ∧ next_invoice_number none (some [("Invoice_2024_01_#2.pdf"),
        ("Invoice_2024_02_#4.pdf")]) = Except.ok 5 := by
  refine ⟨?_, ?_, rfl, rfl⟩
  · intro file dir c h
    unfold next_invoice_number
    rw [h]
  · intro names
    obtain ⟨h1, h2, h3⟩ := pdfMaxStep_foldl (names.filter globMatch) 0
    rw [max_invoice_number_eq_foldl]
    constructor
    · intro name hname k hglob hk
      exact h2 name (List.mem_filter.mpr ⟨hname, hglob⟩) k hk
    · rcases h3 with heq | hex
      · left
        exact heq
      · obtain ⟨name, hname, hval⟩ := hex
        obtain ⟨hmem, hglob⟩ := List.mem_filter.mp hname
        right
        exact ⟨name, hmem, hglob, hval⟩

theorem next_invoice_number_spec_witness :
    next_invoice_number (some ("7")) (some []) =
      Except.ok (max 7 (Int.ofNat (max_invoice_number_from_pdfs (some []))) + 1) :=
  next_invoice_number_spec.1 (some ("7")) (some []) 7 rfl

/-! ### Persisted counter reads -/

/-- C4 counterexample: a present counter file with empty content is not a
Python integer (the program's own integer parse rejects it), yet the read
silently returns 0 instead of failing. -/
theorem read_counter_empty_no_error :
    parsePyInt (stripChars ("").data) = none
    ∧ read_last_invoice_number (some ("")) = Except.ok 0 := ⟨rfl, rfl⟩

/-- C4 (amended): an absent counter file reads as 0; a present file whose
content strips to the empty string also reads as 0 (the empty-content
escape the original claim missed); a present file whose stripped content is
non-empty but not a Python integer fails with an error; and a present file
whose stripped content parses as a Python integer reads as that value. -/
theorem read_last_invoice_number_spec :
    read_last_invoice_number none = Except.ok 0
    ∧ (∀ content : String, stripChars content.data = [] →
        read_last_invoice_number (some content) = Except.ok 0)
    ∧ (∀ content : String, stripChars content.data ≠ [] →
        parsePyInt (stripChars content.data) = none →
        read_last_invoice_number (some content) =
          Except.error ("Invalid invoice_number.txt content"))
    ∧ (∀ (content : String) (n : Int),
        parsePyInt (stripChars content.data) = some n →
        read_last_invoice_number (some content) = Except.ok n) := by
  refine ⟨rfl, ?_, ?_, ?_⟩
  · intro content h
    simp [read_last_invoice_number, h]
  · intro content h hp
    cases hs : stripChars content.data with
    | nil => exact absurd hs h
    | cons c r =>
      rw [hs] at hp
      simp [read_last_invoice_number, hs, hp]
  · intro content n hp
    cases hs : stripChars content.data with
    | nil => rw [hs] at hp; exact absurd hp (by simp [parsePyInt])
    | cons c r =>
      rw [hs] at hp
      simp [read_last_invoice_number, hs, hp]

theorem read_last_invoice_number_spec_witness :
    read_last_invoice_number (some ("abc")) =
      Except.error ("Invalid invoice_number.txt content") :=
  read_last_invoice_number_spec.2.2.1 ("abc") (by decide) rfl

/-! ### Counter write/read round trip -/

theorem natDigitsRev_zero (n : Nat) : natDigitsRev 0 n = [] := rfl

theorem natDigitsRev_succ (f n : Nat) :
    natDigitsRev (f + 1) n =
      if n < 10 then [Char.ofNat (48 + n)]
      else Char.ofNat (48 + n % 10) :: natDigitsRev f (n / 10) := rfl

theorem char_ofNat_digit_facts (k : Nat) (hk : k < 10) :
    (Char.ofNat (48 + k)).toNat = 48 + k
    ∧ (Char.ofNat (48 + k)).isDigit = true
    ∧ (Char.ofNat (48 + k)).isWhitespace = false
    ∧ Char.ofNat (48 + k) ≠ '+'
    ∧ Char.ofNat (48 + k) ≠ '-' := by
  interval_cases k <;> exact ⟨rfl, rfl, rfl, by decide, by decide⟩

theorem natDigitsRev_mem (fuel : Nat) :
    ∀ (n : Nat), ∀ c ∈ natDigitsRev fuel n,
      ∃ k, k < 10 ∧ c = Char.ofNat (48 + k) := by
  induction fuel with
  | zero => intro n c hc; rw [natDigitsRev_zero] at hc; exact absurd hc (by simp)
  | succ f ih =>
    intro n c hc
    rw [natDigitsRev_succ] at hc
    by_cases h : n < 10
    · rw [if_pos h] at hc
      simp at hc
      exact ⟨n, h, hc⟩
    · rw [if_neg h] at hc
      rcases List.mem_cons.mp hc with rfl | hc2
      · exact ⟨n % 10, Nat.mod_lt _ (by omega), rfl⟩
      · exact ih (n / 10) c hc2

theorem digitsToNat_append_single (a : List Char) (c : Char) :
    digitsToNat (a ++ [c]) = 10 * digitsToNat a + (c.toNat - 48) := by
  unfold digitsToNat
  rw [digitsToNatAux_append, digitsToNatAux_cons, digitsToNatAux_nil]

theorem natDigitsRev_value (fuel : Nat) :
    ∀ n : Nat, n < fuel → digitsToNat ((natDigitsRev fuel n).reverse) = n := by
  induction fuel with
  | zero => intro n h; omega
  | succ f ih =>
    intro n h
    rw [natDigitsRev_succ]
    by_cases h10 : n < 10
    · rw [if_pos h10]
      have hf := (char_ofNat_digit_facts n h10).1
      unfold digitsToNat
      rw [List.reverse_singleton, digitsToNatAux_cons, digitsToNatAux_nil, hf]
      omega
    · rw [if_neg h10, List.reverse_cons, digitsToNat_append_single,
        ih (n / 10) (by omega),
        (char_ofNat_digit_facts (n % 10) (Nat.mod_lt _ (by omega))).1]
      omega

theorem natDigitsRev_ne_nil (f n : Nat) (h : 0 < f) :
    natDigitsRev f n ≠ [] := by
  cases f with
  | zero => omega
  | succ f =>
    rw [natDigitsRev_succ]
    split <;> simp

theorem digitsToNat_natToChars (n : Nat) : digitsToNat (natToChars n) = n :=
  natDigitsRev_value (n + 1) n (by omega)

theorem natToChars_ne_nil (n : Nat) : natToChars n ≠ [] := by
  unfold natToChars
  intro h
  rw [List.reverse_eq_nil_iff] at h
  exact natDigitsRev_ne_nil (n + 1) n (by omega) h

theorem natToChars_mem (n : Nat) :
    ∀ c ∈ natToChars n, ∃ k, k < 10 ∧ c = Char.ofNat (48 + k) := by
  intro c hc
  rw [natToChars, List.mem_reverse] at hc
  exact natDigitsRev_mem (n + 1) n c hc

theorem dropWhile_no_ws (l : List Char)
    (h : ∀ c ∈ l, Char.isWhitespace c = false) :
    l.dropWhile Char.isWhitespace = l := by
  cases l with
  | nil => rfl
  | cons c rest =>
    rw [List.dropWhile_cons, h c (by simp)]
    simp

theorem stripChars_digits_newline (ds : List Char)
    (h : ∀ c ∈ ds, c.isWhitespace = false) :
    stripChars (ds ++ [('\n' : Char)]) = ds := by
  unfold stripChars
  cases ds with
  | nil => rfl
  | cons c rest =>
    rw [List.cons_append, List.dropWhile_cons, h c (by simp)]
    simp only [Bool.false_eq_true, if_false, List.reverse_cons,
      List.reverse_append, List.reverse_cons, List.reverse_nil,
      List.nil_append, List.cons_append, List.singleton_append]
    rw [List.dropWhile_cons]
    simp only [show Char.isWhitespace '\n' = true from rfl, if_true]
    rw [dropWhile_no_ws (rest.reverse ++ [c]) ?hmem]
    · simp
    case hmem =>
      intro d hd
      rcases List.mem_append.mp hd with h1 | h1
      · exact h d (by simp [List.mem_reverse.mp h1])
      · simp at h1
        subst h1
        exact h d (by simp)

theorem parseUDigitsGo_cons (acc : Nat) (c : Char) (rest : List Char) :
    parseUDigitsGo acc (c :: rest) =
      if c.isDigit then parseUDigitsGo (10 * acc + (c.toNat - 48)) rest
      else if c = '_' then
        match rest with
        | [] => none
        | d :: rest2 =>
          if d.isDigit then parseUDigitsGo (10 * acc + (d.toNat - 48)) rest2
          else none
      else none := by
  cases rest <;> rfl

theorem parseUDigitsGo_all (l : List Char) :
    ∀ acc : Nat, (∀ c ∈ l, c.isDigit = true) →
      parseUDigitsGo acc l = some (digitsToNatAux acc l) := by
  induction l with
  | nil => intro acc h; rfl
  | cons c rest ih =>
    intro acc h
    rw [parseUDigitsGo_cons, if_pos (h c (by simp)), digitsToNatAux_cons]
    exact ih _ (fun d hd => h d (by simp [hd]))

theorem parseUDigits_cons (c : Char) (rest : List Char) :
    parseUDigits (c :: rest) =
      if c.isDigit then parseUDigitsGo (c.toNat - 48) rest else none := rfl

theorem parseUDigits_all (l : List Char) (hne : l ≠ [])
    (h : ∀ c ∈ l, c.isDigit = true) :
    parseUDigits l = some (digitsToNat l) := by
  cases l with
  | nil => exact absurd rfl hne
  | cons c rest =>
    rw [parseUDigits_cons, if_pos (h c (by simp)),
      parseUDigitsGo_all rest (c.toNat - 48) (fun d hd => h d (by simp [hd]))]
    unfold digitsToNat
    rw [digitsToNatAux_cons]
    congr 2
    omega

theorem digit_char_not_sign (c : Char) (h : c.isDigit = true) :
    c ≠ '+' ∧ c ≠ '-' := by
  obtain ⟨h1, h2⟩ := char_digit_toNat c h
  constructor <;> rintro rfl <;> exact absurd h1 (by decide)

theorem parsePyInt_cons (c : Char) (rest : List Char) :
    parsePyInt (c :: rest) =
      if c = '+' then (parseUDigits rest).map (fun n => (n : Int))
      else if c = '-' then (parseUDigits rest).map (fun n => -(n : Int))
      else (parseUDigits (c :: rest)).map (fun n => (n : Int)) := rfl

theorem parsePyInt_digits (l : List Char) (hne : l ≠ [])
    (hd : ∀ c ∈ l, c.isDigit = true) :
    parsePyInt l = some (Int.ofNat (digitsToNat l)) := by
  cases l with
  | nil => exact absurd rfl hne
  | cons c rest =>
    obtain ⟨hp, hm⟩ := digit_char_not_sign c (hd c (by simp))
    rw [parsePyInt_cons, if_neg hp, if_neg hm,
      parseUDigits_all (c :: rest) (by simp) hd]
    rfl

/-- Helper: when the stripped content parses as a Python integer, the
counter read succeeds with that value. -/
theorem read_parse_ok (content : String) (n : Int)
    (hp : parsePyInt (stripChars content.data) = some n) :
    read_last_invoice_number (some content) = Except.ok n := by
  cases hs : stripChars content.data with
  | nil => rw [hs] at hp; exact absurd hp (by simp [parsePyInt])
  | cons c r =>
    rw [hs] at hp
    simp [read_last_invoice_number, hs, hp]

/-- C10: counter persistence round-trips — for every non-negative integer
`n`, writing `n` with `_write_last_invoice_number` and reading the resulting
file content with `_read_last_invoice_number` yields `n` back. -/
theorem counter_write_read_round_trip :
    ∀ n : Int, 0 ≤ n →
      read_last_invoice_number (some (write_last_invoice_number n)) =
        Except.ok n := by
  intro n hn
  have hw : write_last_invoice_number n =
      String.mk (natToChars n.toNat) ++ ("\n") := by
    unfold write_last_invoice_number intToDecimalString
    rw [if_neg (by omega : ¬ n < 0)]
  have hdata : (String.mk (natToChars n.toNat) ++ ("\n")).data =
      natToChars n.toNat ++ [('\n' : Char)] := by
    rw [String.data_append]
  have hws : ∀ c ∈ natToChars n.toNat, c.isWhitespace = false := by
    intro c hc
    obtain ⟨k, hk, rfl⟩ := natToChars_mem n.toNat c hc
    exact (char_ofNat_digit_facts k hk).2.2.1
  have hdig : ∀ c ∈ natToChars n.toNat, c.isDigit = true := by
    intro c hc
    obtain ⟨k, hk, rfl⟩ := natToChars_mem n.toNat c hc
    exact (char_ofNat_digit_facts k hk).2.1
  have hparse : parsePyInt (natToChars n.toNat) =
      some (Int.ofNat (digitsToNat (natToChars n.toNat))) :=
    parsePyInt_digits _ (natToChars_ne_nil _) hdig
  rw [digitsToNat_natToChars, show Int.ofNat n.toNat = n by
    rw [Int.ofNat_eq_coe]; exact Int.toNat_of_nonneg hn] at hparse
  rw [hw]
  apply read_parse_ok
  rw [hdata, stripChars_digits_newline _ hws]
  exact hparse

theorem counter_write_read_round_trip_witness :
    read_last_invoice_number (some (write_last_invoice_number 7)) =
      Except.ok 7 :=
  counter_write_read_round_trip 7 (by decide)

/-! ### Prompt validation -/

theorem check_target_ok (month year : Nat) (t : InvoiceTarget)
    (h : check_target month year = Except.ok t) :
    t.month = month ∧ t.year = year
    ∧ 1 ≤ month ∧ month ≤ 12 ∧ 1900 ≤ year ∧ year ≤ 3000 := by
  unfold check_target at h
  by_cases h1 : 1 ≤ month ∧ month ≤ 12
  · rw [if_pos h1] at h
    by_cases h2 : 1900 ≤ year ∧ year ≤ 3000
    · rw [if_pos h2] at h
      simp only [Except.ok.injEq] at h
      subst h
      exact ⟨rfl, rfl, h1.1, h1.2, h2.1, h2.2⟩
    · rw [if_neg h2] at h
      exact absurd h (by simp)
  · rw [if_neg h1] at h
    exact absurd h (by simp)

/-- Helper: any target accepted by the prompt satisfies both range checks. -/
theorem prompt_target_ok_ranges (s : String) (y : Nat) (t : InvoiceTarget)
    (h : prompt_target s y = Except.ok t) :
    1 ≤ t.month ∧ t.month ≤ 12 ∧ 1900 ≤ t.year ∧ t.year ≤ 3000 := by
  unfold prompt_target at h
  cases hs : stripChars s.data with
  | nil => rw [hs] at h; exact absurd h (by simp)
  | cons c r =>
    rw [hs] at h
    dsimp only at h
    rcases hm1 : match_digits_1_2 (c :: r) with _ | m
    · rw [hm1] at h
      rcases hm2 : match_mm_yyyy (c :: r) with _ | p
      · rw [hm2] at h
        rcases hm3 : match_yyyy_mm (c :: r) with _ | q
        · rw [hm3] at h
          exact absurd h (by simp)
        · obtain ⟨yy, mm⟩ := q
          rw [hm3] at h
          simp only at h
          obtain ⟨e1, e2, h3, h4, h5, h6⟩ := check_target_ok mm yy t h
          rw [e1, e2]
          exact ⟨h3, h4, h5, h6⟩
      · obtain ⟨mm, yy⟩ := p
        rw [hm2] at h
        simp only at h
        obtain ⟨e1, e2, h3, h4, h5, h6⟩ := check_target_ok mm yy t h
        rw [e1, e2]
        exact ⟨h3, h4, h5, h6⟩
    · rw [hm1] at h
      simp only at h
      obtain ⟨e1, e2, h3, h4, h5, h6⟩ := check_target_ok m y t h
      rw [e1, e2]
      exact ⟨h3, h4, h5, h6⟩

/-- C7: a prompt input matching none of the three accepted textual forms is
rejected with an error; any accepted input yields a month in 1–12 and a year
in 1900–3000 (so out-of-range values such as month 13 are rejected); and the
end-to-end run with prompt input `13` exits with code 1 after printing an
error, with no PDF moved into place and no counter write. -/
theorem prompt_rejects_invalid_inputs :
    (∀ (s : String) (y : Nat),
        match_digits_1_2 (stripChars s.data) = none →
        match_mm_yyyy (stripChars s.data) = none →
        match_yyyy_mm (stripChars s.data) = none →
        ∃ e, prompt_target s y = Except.error e)
    ∧ (∀ (s : String) (y : Nat) (t : InvoiceTarget),
        prompt_target s y = Except.ok t →
        1 ≤ t.month ∧ t.month ≤ 12 ∧ 1900 ≤ t.year ∧ t.year ≤ 3000)
    ∧ run_main (MainWorld.mk (some []) true (some []) none ("13") 2026
        true true false false true) =
      (Outcome.exited 1, [Ev.prompt_read, Ev.printed_error])
    ∧ Ev.moved_pdf ∉ [Ev.prompt_read, Ev.printed_error]
    ∧ (∀ n : Int, Ev.wrote_counter n ∉ [Ev.prompt_read, Ev.printed_error]) := by
  refine ⟨?_, prompt_target_ok_ranges, by decide, by decide, ?_⟩
  · intro s y h1 h2 h3
    cases hs : stripChars s.data with
    | nil =>
      exact ⟨("No input provided."), by simp [prompt_target, hs]⟩
    | cons c r =>
      rw [hs] at h1 h2 h3
      exact ⟨("Invalid format. Use: M, MM, MM/YYYY, or YYYY-MM."),
        by simp [prompt_target, hs, h1, h2, h3]⟩
  · intro n
    simp

theorem prompt_rejects_invalid_inputs_witness :
    ∃ e, prompt_target ("hello") 2026 = Except.error e :=
  prompt_rejects_invalid_inputs.1 ("hello") 2026 (by decide) (by decide)
    (by decide)

/-! ### InvoiceTarget invariants -/

theorem matchNew_bound (l : List Char) (y m k : Nat)
    (h : matchNew l = some (y, m, k)) : y ≤ 9999 ∧ m ≤ 99 := by
  simp only [matchNew, Option.bind_eq_some, Option.map_eq_some'] at h
  obtain ⟨r1, he, yp, h4, r2, hu, mp, h2, r3, hu2, n, hmt, heq⟩ := h
  obtain ⟨ys, yr⟩ := yp
  obtain ⟨ms, mr⟩ := mp
  obtain ⟨hl4, hlen4, hdig4⟩ := takeKDigits_sound 4 r1 ys yr h4
  obtain ⟨hl2, hlen2, hdig2⟩ := takeKDigits_sound 2 r2 ms mr h2
  have hy := digitsToNat_lt ys hdig4
  have hm := digitsToNat_lt ms hdig2
  rw [hlen4] at hy
  rw [hlen2] at hm
  simp only [Prod.mk.injEq] at heq
  obtain ⟨hy2, hm2, _⟩ := heq
  rw [← hy2, ← hm2]
  norm_num at hy hm
  omega

theorem matchOld_bound (l : List Char) (y m k : Nat)
    (h : matchOld l = some (y, m, k)) : y ≤ 9999 ∧ m ≤ 99 := by
  simp only [matchOld, Option.bind_eq_some, Option.map_eq_some'] at h
  obtain ⟨r1, he, mp, h2, r2, hu, yp, h4, r3, hu2, n, hmt, heq⟩ := h
  obtain ⟨ms, mr⟩ := mp
  obtain ⟨ys, yr⟩ := yp
  obtain ⟨hl2, hlen2, hdig2⟩ := takeKDigits_sound 2 r1 ms mr h2
  obtain ⟨hl4, hlen4, hdig4⟩ := takeKDigits_sound 4 r2 ys yr h4
  have hy := digitsToNat_lt ys hdig4
  have hm := digitsToNat_lt ms hdig2
  rw [hlen4] at hy
  rw [hlen2] at hm
  simp only [Prod.mk.injEq] at heq
  obtain ⟨hy2, hm2, _⟩ := heq
  rw [← hy2, ← hm2]
  norm_num at hy hm
  omega

theorem parse_some_year_bound (name : String) (y m : Nat) (n3 : Option Nat)
    (h : parse_invoice_filename name = (some y, some m, n3)) :
    y ≤ 9999 ∧ m ≤ 99 := by
  unfold parse_invoice_filename at h
  cases hm : matchNew name.data with
  | some v =>
    obtain ⟨a, b, c⟩ := v
    rw [hm] at h
    simp only [Prod.mk.injEq, Option.some.injEq] at h
    obtain ⟨ha, hb, _⟩ := h
    subst ha
    subst hb
    exact matchNew_bound name.data _ _ c hm
  | none =>
    rw [hm] at h
    cases ho : matchOld name.data with
    | some v =>
      obtain ⟨a, b, c⟩ := v
      rw [ho] at h
      simp only [Prod.mk.injEq, Option.some.injEq] at h
      obtain ⟨ha, hb, _⟩ := h
      subst ha
      subst hb
      exact matchOld_bound name.data _ _ c ho
    | none =>
      rw [ho] at h
      simp at h

/-- C9 counterexample: directory discovery constructs an `InvoiceTarget`
with year 1 (from filename `Invoice_0001_05_#1.pdf`), violating the claimed
1900–3000 year invariant. -/
theorem invoice_target_invariant_counterexample :
    list_generated_targets (some [("Invoice_0001_05_#1.pdf")]) =
      [InvoiceTarget.mk 5 1]
    ∧ ¬ 1900 ≤ (InvoiceTarget.mk 5 1).year := by decide

/-- C9 (amended): every `InvoiceTarget` recovered by directory discovery has
month in 1–12 and year at most 9999 (the year is whatever four digits the
filename carries, so the claimed 1900–3000 lower bound can be violated);
every `InvoiceTarget` obtained from the interactive prompt satisfies the
full data-model invariant: month in 1–12 and year in 1900–3000. -/
theorem invoice_target_invariant_amended :
    (∀ (dir : Option (List String)) (t : InvoiceTarget),
        t ∈ list_generated_targets dir →
        1 ≤ t.month ∧ t.month ≤ 12 ∧ t.year ≤ 9999)
    ∧ (∀ (s : String) (y : Nat) (t : InvoiceTarget),
        prompt_target s y = Except.ok t →
        1 ≤ t.month ∧ t.month ≤ 12 ∧ 1900 ≤ t.year ∧ t.year ≤ 3000) := by
  constructor
  · intro dir t ht
    cases dir with
    | none => exact absurd ht (by simp [list_generated_targets])
    | some names =>
      obtain ⟨name, hmem, hglob, ⟨n, hparse⟩, hm1, hm2⟩ :=
        (mem_list_generated_targets names t).mp ht
      obtain ⟨hy, _⟩ := parse_some_year_bound name t.year t.month n hparse
      exact ⟨hm1, hm2, hy⟩
  · exact prompt_target_ok_ranges

theorem invoice_target_invariant_amended_witness :
    1 ≤ (InvoiceTarget.mk 5 1).month
    ∧ (InvoiceTarget.mk 5 1).month ≤ 12
    ∧ (InvoiceTarget.mk 5 1).year ≤ 9999 :=
  invoice_target_invariant_amended.1 (some [("Invoice_0001_05_#1.pdf")])
    (InvoiceTarget.mk 5 1) (by decide)

/-! ### Workflow ordering and error handling -/

/-- Helper: a configuration with a missing required key fails to load. -/
theorem load_env_error_of_missing (pairs : List (String × Option String))
    (h : missing_env_keys (cleaned_env pairs) ≠ []) :
    ∃ e, load_env pairs = Except.error e := by
  unfold load_env
  cases hm : missing_env_keys (cleaned_env pairs) with
  | nil => exact absurd hm h
  | cons k ks => exact ⟨_, rfl⟩

/-- C5 counterexample: with every required key missing, the run still reads
the interactive prompt before failing — the prompt-read event occurs in a
missing-key run, contradicting the claim that it never does. -/
theorem missing_env_prompt_read_counterexample :
    (∃ e, load_env [] = Except.error e)
    ∧ run_main (MainWorld.mk (some []) true (some []) none ("2") 2026
        true true false false true) =
      (Outcome.exited 1, [Ev.prompt_read, Ev.printed_error])
    ∧ Ev.prompt_read ∈ [Ev.prompt_read, Ev.printed_error] :=
  ⟨⟨_, rfl⟩, by decide, by decide⟩

/-- C5 (amended): a missing or empty required configuration key is a fatal
error — the run exits with code 1, prints an error, moves no PDF and writes
no counter — but the failure occurs only after the interactive prompt has
been read (only the `.env` file's and the template's existence are checked
before prompting; the key check runs after the prompt). -/
theorem missing_env_key_fails_after_prompting :
    ∀ (w : MainWorld) (pairs : List (String × Option String))
      (t : InvoiceTarget),
      w.env_file = some pairs →
      w.template_exists = true →
      prompt_target w.prompt_input w.today_year = Except.ok t →
      w.node_in_path = true →
      w.python_in_path = true →
      missing_env_keys (cleaned_env pairs) ≠ [] →
      (run_main w).1 = Outcome.exited 1
      ∧ Ev.prompt_read ∈ (run_main w).2
      ∧ Ev.printed_error ∈ (run_main w).2
      ∧ Ev.moved_pdf ∉ (run_main w).2
      ∧ (∀ n : Int, Ev.wrote_counter n ∉ (run_main w).2) := by
  intro w pairs t henv htmpl hprompt hnode hpy hmiss
  obtain ⟨envf, tmpl, inv, cnt, pr, ty, node, py, outp, rr, pm⟩ := w
  simp only at henv htmpl hprompt hnode hpy
  subst henv
  subst htmpl
  subst hnode
  subst hpy
  obtain ⟨e, herr⟩ := load_env_error_of_missing pairs hmiss
  unfold run_main
  dsimp only
  rw [hprompt, herr]
  dsimp only
  by_cases hdup : (list_generated_targets (some (inv.getD []))).any
      (fun x => x.year == t.year && x.month == t.month) = true
  · simp [hdup]
  · simp [hdup]

theorem missing_env_key_fails_after_prompting_witness :
    (run_main (MainWorld.mk (some []) true (some []) none ("2") 2026
        true true false false true)).1 = Outcome.exited 1
    ∧ Ev.prompt_read ∈ (run_main (MainWorld.mk (some []) true (some [])
        none ("2") 2026 true true false false true)).2
    ∧ Ev.printed_error ∈ (run_main (MainWorld.mk (some []) true (some [])
        none ("2") 2026 true true false false true)).2
    ∧ Ev.moved_pdf ∉ (run_main (MainWorld.mk (some []) true (some [])
        none ("2") 2026 true true false false true)).2
    ∧ (∀ n : Int, Ev.wrote_counter n ∉ (run_main (MainWorld.mk (some [])
        true (some []) none ("2") 2026 true true false false true)).2) :=
  missing_env_key_fails_after_prompting
    (MainWorld.mk (some []) true (some []) none ("2") 2026
      true true false false true)
    [] (InvoiceTarget.mk 2 2026) rfl rfl rfl rfl rfl (by decide)

/-- C6: (a) in every run, a counter-write event occurs only as the final
event immediately preceded by the PDF move — the counter is never persisted
without the PDF having been moved into place first; (b) whenever the
computed final filename already exists (the pre-render `exists()` check
answers true), the run exits with code 1 and no rendering ever happens. -/
theorem counter_persisted_only_after_move :
    (∀ (w : MainWorld) (n : Int),
        Ev.wrote_counter n ∈ (run_main w).2 →
        ∃ pre, (run_main w).2 = pre ++ [Ev.moved_pdf, Ev.wrote_counter n])
    ∧ (∀ (w : MainWorld) (t : InvoiceTarget) (c : Int),
        prompt_target w.prompt_input w.today_year = Except.ok t →
        read_last_invoice_number w.counter_file = Except.ok c →
        w.out_pdf_exists = true →
        (run_main w).1 = Outcome.exited 1
        ∧ Ev.rendered ∉ (run_main w).2) := by
  constructor
  · intro w n
    obtain ⟨envf, tmpl, inv, cnt, pr, ty, node, py, outp, rr, pm⟩ := w
    unfold run_main
    dsimp only
    repeat' split
    all_goals intro hmem
    all_goals try solve
      | (exfalso; revert hmem; simp)
    all_goals simp at hmem
    all_goals subst hmem
    · exact ⟨[Ev.prompt_read, Ev.warned_duplicate, Ev.rendered,
        Ev.converted], rfl⟩
    · exact ⟨[Ev.prompt_read, Ev.rendered, Ev.converted], rfl⟩
  · intro w t c hp hr hout
    obtain ⟨envf, tmpl, inv, cnt, pr, ty, node, py, outp, rr, pm⟩ := w
    simp only at hp hr hout
    subst hout
    unfold run_main
    dsimp only
    repeat' split
    all_goals simp_all

theorem counter_persisted_only_after_move_witness :
    (run_main (MainWorld.mk (some goodEnvPairs) true (some []) none ("2")
        2026 true true true false true)).1 = Outcome.exited 1
    ∧ Ev.rendered ∉ (run_main (MainWorld.mk (some goodEnvPairs) true
        (some []) none ("2") 2026 true true true false true)).2 :=
  counter_persisted_only_after_move.2
    (MainWorld.mk (some goodEnvPairs) true (some []) none ("2") 2026
      true true true false true)
    (InvoiceTarget.mk 2 2026) 0 rfl rfl rfl

/-- C8 counterexample: with corrupt counter-file content `abc`, the failure
is a state-corruption error, yet it is not caught in `main`: the run ends as
an uncaught exception with no human-readable error message printed,
contradicting the claim that every error kind is caught with a message. -/
theorem uncaught_state_corruption_counterexample :
    read_last_invoice_number (some ("abc")) =
      Except.error ("Invalid invoice_number.txt content")
    ∧ run_main (MainWorld.mk (some goodEnvPairs) true (some [])
        (some ("abc")) ("2") 2026 true true false false true) =
      (Outcome.uncaught_exception, [Ev.prompt_read])
    ∧ Ev.printed_error ∉ [Ev.prompt_read] :=
  ⟨rfl, by decide, by decide⟩

/-- C8 (amended): every run either returns exit code 0, or returns exit
code 1 having printed a human-readable error message, or ends in an
uncaught exception with no message printed (after which the interpreter
exits with status 1 and a traceback); the uncaught case arises only from
counter-file corruption or an exception inside rendering/conversion —
configuration, input, environment, collision and missing-output errors are
all caught with a printed message and exit code 1. -/
theorem run_main_error_handling :
    (∀ (w : MainWorld) (c : Nat) (evs : List Ev),
        run_main w = (Outcome.exited c, evs) →
        c = 0 ∨ (c = 1 ∧ Ev.printed_error ∈ evs))
    ∧ (∀ (w : MainWorld) (evs : List Ev),
        run_main w = (Outcome.uncaught_exception, evs) →
        Ev.printed_error ∉ evs
        ∧ ((∃ e, read_last_invoice_number w.counter_file = Except.error e)
            ∨ w.render_raises = true)) := by
  constructor
  · intro w c evs h
    obtain ⟨envf, tmpl, inv, cnt, pr, ty, node, py, outp, rr, pm⟩ := w
    unfold run_main at h
    dsimp only at h
    repeat' split at h
    all_goals simp at h
    all_goals obtain ⟨h1, h2⟩ := h
    all_goals subst h1
    all_goals subst h2
    all_goals simp
  · intro w evs h
    obtain ⟨envf, tmpl, inv, cnt, pr, ty, node, py, outp, rr, pm⟩ := w
    unfold run_main at h
    dsimp only at h
    repeat' split at h
    all_goals simp at h
    all_goals subst h
    all_goals refine ⟨by simp, ?_⟩
    all_goals first
      | exact Or.inl ⟨_, by assumption⟩
      | exact Or.inr (by assumption)

theorem run_main_error_handling_witness :
    (0 : Nat) = 0 ∨ ((0 : Nat) = 1 ∧ Ev.printed_error ∈ [Ev.prompt_read,
      Ev.rendered, Ev.converted, Ev.moved_pdf, Ev.wrote_counter 1]) :=
  run_main_error_handling.1 baseWorld 0 [Ev.prompt_read, Ev.rendered,
    Ev.converted, Ev.moved_pdf, Ev.wrote_counter 1] rfl
